import Mathlib

/-!
Verification of the snaprs chat analyzer (`src/main.rs`) against its
natural-language specification.

The Rust program deserializes a JSON chat export into `ChatData`
(a map from conversation name to a vector of `Message`), applies the
optional filters of `Opt` (`user`, `from_date`, `to_date`, `saved_only`,
`media_type`) and folds the accepted messages into a `Statistics`
accumulator (`analyze_messages`), which `print_statistics` then reports.

Modelling choices:
* `HashMap<String, Vec<Message>>` is modelled as an association list
  `List (String × List Message)`; the iteration order of the Rust map is
  unspecified, the list fixes one order.  All quantities the theorems
  below talk about (counters, minima/maxima of timestamps) are
  independent of that order.
* The two statistics maps are modelled as total functions with default
  value `0` (resp. `(0, 0)`): in the Rust code an entry is only ever
  created together with an increment, so "key present in the map" is
  exactly "value distinct from the default".
* `msg.Created.split_whitespace().next().unwrap()` can panic; fallible
  code is modelled with `Option`, `none` standing for the panic, and
  `analyze_messages` accordingly returns `Option Statistics`.
* Rust's `&str` comparison is byte-wise lexicographic on the UTF-8
  encoding, which coincides with code-point lexicographic order; it is
  embedded as the structural function `strLt` below.
* `DateTime` values (always normalized to UTC by the program) are
  modelled as seconds since the Unix epoch (`Int`).
-/

/-- One chat event, mirroring `struct Message` of `src/main.rs`
field for field (`From`, `Media Type`, `Created`, `Content`,
`Conversation Title`, `IsSender`, `Created(microseconds)`, `IsSaved`). -/
structure Message where
  From : String
  media_type : String
  Created : String
  Content : Option String
  conversation_title : Option String
  IsSender : Bool
  created_microseconds : Int
  IsSaved : Bool
deriving DecidableEq

/-- `struct ChatData(HashMap<String, Vec<Message>>)`, as an association
list from conversation name to its messages. -/
abbrev ChatData := List (String × List Message)

/-- The command-line options of `struct Opt` (the `input` path is kept
for shape-faithfulness; it plays no role in `analyze_messages`). -/
structure Opt where
  input : String
  user : Option String
  from_date : Option String
  to_date : Option String
  detailed : Bool
  saved_only : Bool
  media_type : Option String
deriving DecidableEq

/-- The accumulator `struct Statistics`.  Timestamps are UTC instants as
seconds since the Unix epoch. -/
structure Statistics where
  total_messages : Nat
  messages_sent : Nat
  messages_received : Nat
  saved_messages : Nat
  media_type_counts : String → Nat
  users_interaction_counts : String → Nat × Nat
  earliest_message : Option Int
  latest_message : Option Int

/-- `Statistics::new()`. -/
def Statistics.new : Statistics :=
  ⟨0, 0, 0, 0, fun _ => 0, fun _ => (0, 0), none, none⟩

/-- Rust's `char::is_whitespace`: the Unicode `White_Space` property
(the 25 code points listed in the Unicode character database). -/
def isRustWhitespace (c : Char) : Bool :=
  (0x09 ≤ c.val && c.val ≤ 0x0D) || c.val == 0x20 || c.val == 0x85 ||
  c.val == 0xA0 || c.val == 0x1680 || (0x2000 ≤ c.val && c.val ≤ 0x200A) ||
  c.val == 0x2028 || c.val == 0x2029 || c.val == 0x202F ||
  c.val == 0x205F || c.val == 0x3000

/-- `s.split_whitespace().next()` on a list of characters: drop leading
whitespace; `none` if nothing remains, otherwise the first maximal run
of non-whitespace characters. -/
def firstTokenList (cs : List Char) : Option (List Char) :=
  match cs.dropWhile isRustWhitespace with
  | [] => none
  | c :: rest => some ((c :: rest).takeWhile fun d => !isRustWhitespace d)

/-- `s.split_whitespace().next()` for strings. -/
def firstTokenOpt (s : String) : Option String :=
  (firstTokenList s.data).map fun cs => ⟨cs⟩

/-- `s` contains at least one non-whitespace character (the exact
condition under which `split_whitespace().next()` is `Some`). -/
def hasNonWS (s : String) : Bool :=
  s.data.any fun c => !isRustWhitespace c

/-- Lexicographic order on character lists; on UTF-8 encoded strings
byte-wise comparison (Rust `&str < &str`) agrees with this code-point
comparison. -/
def lexLt : List Char → List Char → Bool
  | [], [] => false
  | [], _ :: _ => true
  | _ :: _, [] => false
  | a :: xs, b :: ys => if a < b then true else if b < a then false else lexLt xs ys

/-- Rust string comparison `s < t`. -/
def strLt (s t : String) : Bool := lexLt s.data t.data

/-- Value of an ASCII digit, `none` on any other character. -/
def digitVal (c : Char) : Option Nat :=
  if '0' ≤ c ∧ c ≤ '9' then some (c.toNat - 48) else none

/-- Read exactly `n` digits, returning their value and the rest of the
input. -/
def parseDigits : Nat → Nat → List Char → Option (Nat × List Char)
  | 0, acc, cs => some (acc, cs)
  | _ + 1, _, [] => none
  | n + 1, acc, c :: cs =>
    match digitVal c with
    | none => none
    | some d => parseDigits n (acc * 10 + d) cs

/-- Consume one expected character. -/
def expectChar (ch : Char) : List Char → Option (List Char)
  | [] => none
  | c :: cs => if c = ch then some cs else none

/-- Proleptic Gregorian leap year. -/
def isLeap (y : Nat) : Bool :=
  (y % 4 == 0 && y % 100 != 0) || y % 400 == 0

/-- Number of days of month `m` in year `y`. -/
def daysInMonth (y m : Nat) : Nat :=
  if m = 2 then (if isLeap y then 29 else 28)
  else if m = 4 ∨ m = 6 ∨ m = 9 ∨ m = 11 then 30 else 31

/-- Days from 1970-01-01 to the civil date `y-m-d` in the proleptic
Gregorian calendar (the standard era-based algorithm, as used by chrono). -/
def daysFromCivil (y m d : Int) : Int :=
  let y2 := if m ≤ 2 then y - 1 else y
  let era := Int.fdiv y2 400
  let yoe := y2 - era * 400
  let doy := Int.fdiv (153 * (m + (if m > 2 then -3 else 9)) + 2) 5 + d - 1
  let doe := yoe * 365 + Int.fdiv yoe 4 - Int.fdiv yoe 100 + doy
  era * 146097 + doe - 719468

/-- Modelled from the spec: the call
`DateTime::parse_from_str(created, "%Y-%m-%d %H:%M:%S %Z")` followed by
`with_timezone(&Utc)` lives in the external `chrono` crate, whose source
is not part of this repository.  The spec fixes its contract: `created`
parses exactly when it has the literal shape
`"YYYY-MM-DD HH:MM:SS <TZ-abbrev>"` with a valid calendar date and time
of day, and the result is the corresponding UTC instant.  The result is
returned as seconds since the Unix epoch. -/
def parseCreated (s : String) : Option Int := do
  let (y, cs) ← parseDigits 4 0 s.data
  let cs ← expectChar '-' cs
  let (mo, cs) ← parseDigits 2 0 cs
  let cs ← expectChar '-' cs
  let (d, cs) ← parseDigits 2 0 cs
  let cs ← expectChar ' ' cs
  let (h, cs) ← parseDigits 2 0 cs
  let cs ← expectChar ':' cs
  let (mi, cs) ← parseDigits 2 0 cs
  let cs ← expectChar ':' cs
  let (sec, cs) ← parseDigits 2 0 cs
  let cs ← expectChar ' ' cs
  if cs ≠ [] ∧ 1 ≤ mo ∧ mo ≤ 12 ∧ 1 ≤ d ∧ d ≤ daysInMonth y mo ∧
      h ≤ 23 ∧ mi ≤ 59 ∧ sec ≤ 59 then
    some (daysFromCivil (y : Int) (mo : Int) (d : Int) * 86400 +
      (h : Int) * 3600 + (mi : Int) * 60 + (sec : Int))
  else none

/-- `Statistics::update_time_range`: on parse success seed or extend the
`earliest_message`/`latest_message` bounds, on failure leave the
statistics untouched. -/
def update_time_range (stats : Statistics) (created : String) : Statistics :=
  match parseCreated created with
  | none => stats
  | some utc_dt =>
    match stats.earliest_message, stats.latest_message with
    | none, none =>
      { stats with earliest_message := some utc_dt, latest_message := some utc_dt }
    | _, _ =>
      let s1 :=
        if stats.earliest_message.all (fun t => decide (utc_dt < t)) then
          { stats with earliest_message := some utc_dt }
        else stats
      if s1.latest_message.all (fun t => decide (utc_dt > t)) then
        { s1 with latest_message := some utc_dt }
      else s1

/-- The correspondent-filter clause of `analyze_messages`
(lines 102–106): `continue` exactly when
`(!msg.IsSender && msg.From != *user) && (msg.IsSender && msg.From == *user)`. -/
def userExcludes (opt : Opt) (msg : Message) : Bool :=
  match opt.user with
  | none => false
  | some user => (!msg.IsSender && msg.From != user) && (msg.IsSender && msg.From == user)

/-- The `from_date` clause (lines 108–112): `continue` when the first
whitespace-delimited token of `Created` is lexically below the bound;
`none` models the panic of `.next().unwrap()` on an all-whitespace
`Created`. -/
def fromDateExcludes (opt : Opt) (msg : Message) : Option Bool :=
  match opt.from_date with
  | none => some false
  | some fd =>
    match firstTokenOpt msg.Created with
    | none => none
    | some tok => some (strLt tok fd)

/-- The `to_date` clause (lines 114–118), symmetric to `fromDateExcludes`. -/
def toDateExcludes (opt : Opt) (msg : Message) : Option Bool :=
  match opt.to_date with
  | none => some false
  | some td =>
    match firstTokenOpt msg.Created with
    | none => none
    | some tok => some (strLt td tok)

/-- The `saved_only` clause (lines 120–122). -/
def savedExcludes (opt : Opt) (msg : Message) : Bool :=
  opt.saved_only && !msg.IsSaved

/-- The `media_type` clause (lines 124–128). -/
def mediaExcludes (opt : Opt) (msg : Message) : Bool :=
  match opt.media_type with
  | none => false
  | some mt => msg.media_type != mt

/-- The whole filter chain of the loop body of `analyze_messages`, in
source order; `some true` means the message is folded into the
statistics, `some false` that one clause issued `continue`, `none` that
a date clause panicked. -/
def passesFilters (opt : Opt) (msg : Message) : Option Bool :=
  if userExcludes opt msg then some false
  else
    match fromDateExcludes opt msg with
    | none => none
    | some true => some false
    | some false =>
      match toDateExcludes opt msg with
      | none => none
      | some true => some false
      | some false =>
        if savedExcludes opt msg then some false
        else if mediaExcludes opt msg then some false
        else some true

/-- The accumulation part of the loop body of `analyze_messages`
(lines 130–152): bump the counters, the two maps, and the time range. -/
def foldMessage (stats : Statistics) (msg : Message) : Statistics :=
  let stats := { stats with total_messages := stats.total_messages + 1 }
  let stats :=
    if msg.IsSender then
      { stats with messages_received := stats.messages_received + 1 }
    else
      { stats with messages_sent := stats.messages_sent + 1 }
  let stats :=
    if msg.IsSaved then
      { stats with saved_messages := stats.saved_messages + 1 }
    else stats
  let stats :=
    { stats with media_type_counts := fun k =>
        if k = msg.media_type then stats.media_type_counts k + 1
        else stats.media_type_counts k }
  let stats :=
    { stats with users_interaction_counts := fun k =>
        if k = msg.From then
          let p := stats.users_interaction_counts k
          if msg.IsSender then (p.1, p.2 + 1) else (p.1 + 1, p.2)
        else stats.users_interaction_counts k }
  update_time_range stats msg.Created

/-- The inner loop of `analyze_messages` over the messages of one
conversation, threading the accumulator; `none` propagates a panic. -/
def analyzeMessagesList (opt : Opt) : Statistics → List Message → Option Statistics
  | stats, [] => some stats
  | stats, msg :: rest =>
    match passesFilters opt msg with
    | none => none
    | some false => analyzeMessagesList opt stats rest
    | some true => analyzeMessagesList opt (foldMessage stats msg) rest

/-- The outer loop of `analyze_messages` over the conversations. -/
def analyzeConvs (opt : Opt) : Statistics → List (String × List Message) → Option Statistics
  | stats, [] => some stats
  | stats, (_, msgs) :: rest =>
    match analyzeMessagesList opt stats msgs with
    | none => none
    | some s => analyzeConvs opt s rest

/-- `fn analyze_messages(data: &ChatData, opt: &Opt) -> Statistics`;
`none` models the date-clause panic. -/
def analyze_messages (data : ChatData) (opt : Opt) : Option Statistics :=
  analyzeConvs opt Statistics.new data

/-- The date-range computation of `print_statistics` (lines 167–174):
when both bounds are present, `days = latest.signed_duration_since(earliest).num_days()`
(truncating division of the span by 86400 seconds), and the two
date-range lines are printed exactly when `days > 0`; `some days` is
returned in that case, `none` when nothing is printed. -/
def dateRangeDays (stats : Statistics) : Option Int :=
  match stats.earliest_message, stats.latest_message with
  | some e, some l =>
    let days := Int.tdiv (l - e) 86400
    if 0 < days then some days else none
  | _, _ => none

/-- The `Average messages per day` figure of `print_statistics`, as an
exact rational (`total_messages as f64 / days as f64`; the `{:.2}`
floating-point rendering is not modelled). -/
def averageQ (stats : Statistics) : Option ℚ :=
  (dateRangeDays stats).map fun days => (stats.total_messages : ℚ) / (days : ℚ)

/-- Follows the spec's words, for comparison with `dateRangeDays`:
"Date range days = (latest.date − earliest.date) in whole days", i.e.
the difference of the calendar date parts (days since epoch, the floor
of the instant divided by 86400) of the two bounds. -/
def specDateRangeDays (stats : Statistics) : Option Int :=
  match stats.earliest_message, stats.latest_message with
  | some e, some l => some (Int.fdiv l 86400 - Int.fdiv e 86400)
  | _, _ => none

/-! ### Helper lemmas about the filter clauses -/

/-- The exclusion test of the correspondent filter demands
`msg.IsSender` to be false (first conjunct) and true (second conjunct)
at once, so it never fires. -/
theorem userExcludes_eq_false (opt : Opt) (msg : Message) :
    userExcludes opt msg = false := by
  unfold userExcludes
  cases opt.user with
  | none => rfl
  | some user => cases h : msg.IsSender <;> simp [h]

theorem fromDateExcludes_update_saved (opt : Opt) (b : Bool) (msg : Message) :
    fromDateExcludes { opt with saved_only := b } msg = fromDateExcludes opt msg := rfl

theorem toDateExcludes_update_saved (opt : Opt) (b : Bool) (msg : Message) :
    toDateExcludes { opt with saved_only := b } msg = toDateExcludes opt msg := rfl

theorem mediaExcludes_update_saved (opt : Opt) (b : Bool) (msg : Message) :
    mediaExcludes { opt with saved_only := b } msg = mediaExcludes opt msg := rfl

/-! ### Helper lemmas about the accumulator updates -/

theorem utr_total (s : Statistics) (c : String) :
    (update_time_range s c).total_messages = s.total_messages := by
  unfold update_time_range
  split
  · rfl
  · split
    · rfl
    · dsimp only
      split <;> split <;> rfl

theorem utr_sent (s : Statistics) (c : String) :
    (update_time_range s c).messages_sent = s.messages_sent := by
  unfold update_time_range
  split
  · rfl
  · split
    · rfl
    · dsimp only
      split <;> split <;> rfl

theorem utr_received (s : Statistics) (c : String) :
    (update_time_range s c).messages_received = s.messages_received := by
  unfold update_time_range
  split
  · rfl
  · split
    · rfl
    · dsimp only
      split <;> split <;> rfl

theorem utr_saved (s : Statistics) (c : String) :
    (update_time_range s c).saved_messages = s.saved_messages := by
  unfold update_time_range
  split
  · rfl
  · split
    · rfl
    · dsimp only
      split <;> split <;> rfl

theorem utr_media (s : Statistics) (c : String) :
    (update_time_range s c).media_type_counts = s.media_type_counts := by
  unfold update_time_range
  split
  · rfl
  · split
    · rfl
    · dsimp only
      split <;> split <;> rfl

theorem utr_users (s : Statistics) (c : String) :
    (update_time_range s c).users_interaction_counts = s.users_interaction_counts := by
  unfold update_time_range
  split
  · rfl
  · split
    · rfl
    · dsimp only
      split <;> split <;> rfl

/-- Value of `earliest_message` after `update_time_range`, as a function
of the two previous bounds and the parse result. -/
def utrEarliest (e l po : Option Int) : Option Int :=
  match po with
  | none => e
  | some dt =>
    match e, l with
    | none, none => some dt
    | _, _ => if (e.all fun t => decide (dt < t)) then some dt else e

/-- Value of `latest_message` after `update_time_range`, as a function
of the two previous bounds and the parse result. -/
def utrLatest (e l po : Option Int) : Option Int :=
  match po with
  | none => l
  | some dt =>
    match e, l with
    | none, none => some dt
    | _, _ => if (l.all fun t => decide (dt > t)) then some dt else l

theorem utr_earliest_char (s : Statistics) (c : String) :
    (update_time_range s c).earliest_message =
      utrEarliest s.earliest_message s.latest_message (parseCreated c) := by
  obtain ⟨a1, a2, a3, a4, a5, a6, e, l⟩ := s
  unfold update_time_range utrEarliest
  cases parseCreated c with
  | none => rfl
  | some dt =>
    cases e <;> cases l <;> dsimp only <;>
      split <;> (try split) <;> rfl

theorem utr_latest_char (s : Statistics) (c : String) :
    (update_time_range s c).latest_message =
      utrLatest s.earliest_message s.latest_message (parseCreated c) := by
  obtain ⟨a1, a2, a3, a4, a5, a6, e, l⟩ := s
  unfold update_time_range utrLatest
  cases parseCreated c with
  | none => rfl
  | some dt =>
    cases e <;> cases l <;> dsimp only <;>
      split <;> (try split) <;> rfl

theorem fold_total (s : Statistics) (m : Message) :
    (foldMessage s m).total_messages = s.total_messages + 1 := by
  unfold foldMessage
  rw [utr_total]
  dsimp only
  split <;> split <;> rfl

theorem fold_received (s : Statistics) (m : Message) :
    (foldMessage s m).messages_received =
      s.messages_received + (if m.IsSender then 1 else 0) := by
  unfold foldMessage
  rw [utr_received]
  dsimp only
  split <;> split <;> simp

theorem fold_sent (s : Statistics) (m : Message) :
    (foldMessage s m).messages_sent =
      s.messages_sent + (if m.IsSender then 0 else 1) := by
  unfold foldMessage
  rw [utr_sent]
  dsimp only
  split <;> split <;> simp

theorem fold_saved (s : Statistics) (m : Message) :
    (foldMessage s m).saved_messages =
      s.saved_messages + (if m.IsSaved then 1 else 0) := by
  unfold foldMessage
  rw [utr_saved]
  dsimp only
  split <;> split <;> simp

theorem fold_media (s : Statistics) (m : Message) :
    (foldMessage s m).media_type_counts = fun k =>
      if k = m.media_type then s.media_type_counts k + 1
      else s.media_type_counts k := by
  unfold foldMessage
  rw [utr_media]
  dsimp only
  split <;> split <;> rfl

theorem fold_users (s : Statistics) (m : Message) :
    (foldMessage s m).users_interaction_counts = fun k =>
      if k = m.From then
        let p := s.users_interaction_counts k
        if m.IsSender then (p.1, p.2 + 1) else (p.1 + 1, p.2)
      else s.users_interaction_counts k := by
  unfold foldMessage
  rw [utr_users]
  dsimp only
  split <;> split <;> rfl

theorem fold_earliest (s : Statistics) (m : Message) :
    (foldMessage s m).earliest_message =
      utrEarliest s.earliest_message s.latest_message (parseCreated m.Created) := by
  unfold foldMessage
  rw [utr_earliest_char]
  dsimp only
  split <;> split <;> rfl

theorem fold_latest (s : Statistics) (m : Message) :
    (foldMessage s m).latest_message =
      utrLatest s.earliest_message s.latest_message (parseCreated m.Created) := by
  unfold foldMessage
  rw [utr_latest_char]
  dsimp only
  split <;> split <;> rfl

/-! ### Helper lemmas about the aggregation loops -/

theorem analyzeList_cons (opt : Opt) (s : Statistics) (m : Message) (rest : List Message) :
    analyzeMessagesList opt s (m :: rest) =
      match passesFilters opt m with
      | none => none
      | some false => analyzeMessagesList opt s rest
      | some true => analyzeMessagesList opt (foldMessage s m) rest := rfl

theorem analyzeList_append (opt : Opt) (xs ys : List Message) :
    ∀ s : Statistics, analyzeMessagesList opt s (xs ++ ys) =
      (analyzeMessagesList opt s xs).bind fun t => analyzeMessagesList opt t ys := by
  induction xs with
  | nil => intro s; rfl
  | cons m rest ih =>
    intro s
    rw [List.cons_append, analyzeList_cons, analyzeList_cons]
    cases passesFilters opt m with
    | none => rfl
    | some b => cases b <;> simp only [Option.bind] <;> exact ih _

/-- The nested conversation/message loops of `analyze_messages` are the
single loop over the flattened message list. -/
theorem analyzeConvs_flatten (opt : Opt) (convs : List (String × List Message)) :
    ∀ s : Statistics, analyzeConvs opt s convs =
      analyzeMessagesList opt s ((convs.map Prod.snd).flatten) := by
  induction convs with
  | nil => intro s; rfl
  | cons p rest ih =>
    intro s
    obtain ⟨name, msgs⟩ := p
    show analyzeConvs opt s ((name, msgs) :: rest) = _
    unfold analyzeConvs
    have happ := analyzeList_append opt msgs ((rest.map Prod.snd).flatten) s
    simp only [List.map_cons, List.flatten_cons]
    rw [happ]
    cases analyzeMessagesList opt s msgs with
    | none => rfl
    | some t => simpa using ih t

/-- Since the correspondent clause never fires, the filter chain is
determined by the two date clauses and the two boolean gates. -/
theorem pf_char (opt : Opt) (msg : Message) :
    passesFilters opt msg =
      match fromDateExcludes opt msg with
      | none => none
      | some true => some false
      | some false =>
        match toDateExcludes opt msg with
        | none => none
        | some true => some false
        | some false => some (!savedExcludes opt msg && !mediaExcludes opt msg) := by
  unfold passesFilters
  rw [userExcludes_eq_false]
  simp only [Bool.false_eq_true, if_false]
  cases fromDateExcludes opt msg with
  | none => rfl
  | some b =>
    cases b
    · cases toDateExcludes opt msg with
      | none => rfl
      | some b2 =>
        cases b2
        · cases hs : savedExcludes opt msg <;> cases hm : mediaExcludes opt msg <;>
            simp [hs, hm]
        · rfl
    · rfl

theorem pf_true_gates (opt : Opt) (msg : Message)
    (h : passesFilters opt msg = some true) :
    savedExcludes opt msg = false ∧ mediaExcludes opt msg = false := by
  rw [pf_char] at h
  cases hf : fromDateExcludes opt msg with
  | none => rw [hf] at h; simp at h
  | some b =>
    rw [hf] at h
    cases b
    · cases ht : toDateExcludes opt msg with
      | none => rw [ht] at h; simp at h
      | some b2 =>
        rw [ht] at h
        cases b2
        · simp only [Option.some.injEq, Bool.and_eq_true, Bool.not_eq_true'] at h
          exact h
        · simp at h
    · simp at h

theorem savedExcludes_elim (opt : Opt) (msg : Message)
    (h : savedExcludes opt msg = false) (ho : opt.saved_only = true) :
    msg.IsSaved = true := by
  unfold savedExcludes at h
  rw [ho] at h
  simpa using h

theorem mediaExcludes_elim (opt : Opt) (msg : Message) (mt : String)
    (h : mediaExcludes opt msg = false) (ho : opt.media_type = some mt) :
    msg.media_type = mt := by
  unfold mediaExcludes at h
  rw [ho] at h
  simpa using h

/-- If `Created` has no whitespace-delimited token and at least one date
bound is set, the filter chain panics. -/
theorem pf_none_of_noToken (opt : Opt) (msg : Message)
    (htok : firstTokenOpt msg.Created = none)
    (hd : opt.from_date ≠ none ∨ opt.to_date ≠ none) :
    passesFilters opt msg = none := by
  rw [pf_char]
  cases hf : opt.from_date with
  | some fd => simp [fromDateExcludes, hf, htok]
  | none =>
    cases ht : opt.to_date with
    | some td => simp [fromDateExcludes, toDateExcludes, hf, ht, htok]
    | none =>
      rcases hd with h | h
      · exact absurd hf h
      · exact absurd ht h

/-- If `Created` does have a token, the filter chain cannot panic. -/
theorem pf_some_of_token (opt : Opt) (msg : Message) (tok : String)
    (htok : firstTokenOpt msg.Created = some tok) :
    ∃ b, passesFilters opt msg = some b := by
  rw [pf_char]
  cases hf : opt.from_date with
  | none =>
    cases ht : opt.to_date with
    | none =>
      simp only [fromDateExcludes, toDateExcludes, hf, ht]
      exact ⟨_, rfl⟩
    | some td =>
      simp only [fromDateExcludes, toDateExcludes, hf, ht, htok]
      cases strLt td tok <;> exact ⟨_, rfl⟩
  | some fd =>
    cases ht : opt.to_date with
    | none =>
      simp only [fromDateExcludes, toDateExcludes, hf, ht, htok]
      cases strLt tok fd <;> exact ⟨_, rfl⟩
    | some td =>
      simp only [fromDateExcludes, toDateExcludes, hf, ht, htok]
      cases strLt tok fd
      · cases strLt td tok <;> exact ⟨_, rfl⟩
      · exact ⟨_, rfl⟩

/-- With neither date bound set, the filter chain reduces to the two
boolean gates. -/
theorem pf_noDates (opt : Opt) (msg : Message)
    (hf : opt.from_date = none) (ht : opt.to_date = none) :
    passesFilters opt msg = some (!savedExcludes opt msg && !mediaExcludes opt msg) := by
  rw [pf_char]
  simp [fromDateExcludes, toDateExcludes, hf, ht]

theorem dropWhile_ne_nil_of_any (cs : List Char)
    (h : cs.any (fun c => !isRustWhitespace c) = true) :
    cs.dropWhile isRustWhitespace ≠ [] := by
  induction cs with
  | nil => simp at h
  | cons c rest ih =>
    cases hc : isRustWhitespace c with
    | false => simp [List.dropWhile_cons, hc]
    | true =>
      have h2 : rest.any (fun c => !isRustWhitespace c) = true := by
        simp only [List.any_cons, hc] at h
        simpa using h
      simpa [List.dropWhile_cons, hc] using ih h2

/-- A `Created` value with a non-whitespace character always yields a
first token. -/
theorem firstTokenOpt_of_hasNonWS (s : String) (h : hasNonWS s = true) :
    ∃ tok, firstTokenOpt s = some tok := by
  have hne : s.data.dropWhile isRustWhitespace ≠ [] :=
    dropWhile_ne_nil_of_any s.data (by unfold hasNonWS at h; exact h)
  unfold firstTokenOpt firstTokenList
  cases hd : s.data.dropWhile isRustWhitespace with
  | nil => exact absurd hd hne
  | cons c rest => exact ⟨_, rfl⟩

/-- Relation between the filter chains of a `saved_only := true` and a
`saved_only := false` run with all other options shared. -/
theorem pf_saved_rel (opt : Opt) (msg : Message) :
    (passesFilters { opt with saved_only := true } msg = none ↔
      passesFilters { opt with saved_only := false } msg = none)
    ∧ (passesFilters { opt with saved_only := true } msg = some true →
        passesFilters { opt with saved_only := false } msg = some true ∧
          msg.IsSaved = true) := by
  rw [pf_char, pf_char]
  rw [fromDateExcludes_update_saved opt true msg,
      fromDateExcludes_update_saved opt false msg,
      toDateExcludes_update_saved opt true msg,
      toDateExcludes_update_saved opt false msg,
      mediaExcludes_update_saved opt true msg,
      mediaExcludes_update_saved opt false msg]
  have hT : savedExcludes { opt with saved_only := true } msg = !msg.IsSaved := rfl
  have hF : savedExcludes { opt with saved_only := false } msg = false := rfl
  rw [hT, hF]
  cases fromDateExcludes opt msg with
  | none => simp
  | some b =>
    cases b
    · cases toDateExcludes opt msg with
      | none => simp
      | some b2 =>
        cases b2
        · cases hs : msg.IsSaved <;> cases hm : mediaExcludes opt msg <;> simp [hs, hm]
        · simp
    · simp

/-! ### List-level invariants of the aggregation loop -/

theorem analyzeList_congrPF (opt1 opt2 : Opt)
    (hpf : ∀ m, passesFilters opt1 m = passesFilters opt2 m) :
    ∀ (msgs : List Message) (s : Statistics),
      analyzeMessagesList opt1 s msgs = analyzeMessagesList opt2 s msgs := by
  intro msgs
  induction msgs with
  | nil => intro s; rfl
  | cons m rest ih =>
    intro s
    rw [analyzeList_cons, analyzeList_cons, hpf m]
    cases passesFilters opt2 m with
    | none => rfl
    | some b => cases b <;> exact ih _

theorem analyzeList_totalInv (opt : Opt) :
    ∀ (msgs : List Message) (s s' : Statistics),
      analyzeMessagesList opt s msgs = some s' →
      s.total_messages = s.messages_sent + s.messages_received →
      s'.total_messages = s'.messages_sent + s'.messages_received := by
  intro msgs
  induction msgs with
  | nil =>
    intro s s' h hinv
    injection h with h2
    rw [← h2]
    exact hinv
  | cons m rest ih =>
    intro s s' h hinv
    rw [analyzeList_cons] at h
    cases hp : passesFilters opt m with
    | none => rw [hp] at h; cases h
    | some b =>
      rw [hp] at h
      cases b
      · exact ih s s' h hinv
      · refine ih _ s' h ?hstep
        rw [fold_total, fold_sent, fold_received, hinv]
        cases m.IsSender <;> simp <;> omega

theorem analyzeList_mediaInv (opt : Opt) (X : String) (hX : opt.media_type = some X) :
    ∀ (msgs : List Message) (s s' : Statistics),
      analyzeMessagesList opt s msgs = some s' →
      s.media_type_counts X = s.total_messages →
      (∀ k, k ≠ X → s.media_type_counts k = 0) →
      s'.media_type_counts X = s'.total_messages ∧
        ∀ k, k ≠ X → s'.media_type_counts k = 0 := by
  intro msgs
  induction msgs with
  | nil =>
    intro s s' h h1 h2
    injection h with h3
    rw [← h3]
    exact ⟨h1, h2⟩
  | cons m rest ih =>
    intro s s' h h1 h2
    rw [analyzeList_cons] at h
    cases hp : passesFilters opt m with
    | none => rw [hp] at h; cases h
    | some b =>
      rw [hp] at h
      cases b
      · exact ih s s' h h1 h2
      · have hmt : m.media_type = X :=
          mediaExcludes_elim opt m X (pf_true_gates opt m hp).2 hX
        refine ih _ s' h ?ha ?hb
        · rw [fold_total, fold_media, hmt]
          simp [h1]
        · intro k hk
          rw [fold_media, hmt]
          simp [hk, h2 k hk]

theorem analyzeList_savedRel (opt : Opt) :
    ∀ (msgs : List Message) (sT sF rT rF : Statistics),
      analyzeMessagesList { opt with saved_only := true } sT msgs = some rT →
      analyzeMessagesList { opt with saved_only := false } sF msgs = some rF →
      sT.total_messages ≤ sF.total_messages →
      sT.saved_messages = sT.total_messages →
      rT.total_messages ≤ rF.total_messages ∧
        rT.saved_messages = rT.total_messages := by
  intro msgs
  induction msgs with
  | nil =>
    intro sT sF rT rF hT hF hle hsv
    injection hT with h1
    injection hF with h2
    rw [← h1, ← h2]
    exact ⟨hle, hsv⟩
  | cons m rest ih =>
    intro sT sF rT rF hT hF hle hsv
    rw [analyzeList_cons] at hT hF
    cases hpT : passesFilters { opt with saved_only := true } m with
    | none => rw [hpT] at hT; cases hT
    | some bT =>
      rw [hpT] at hT
      have hnn : passesFilters { opt with saved_only := false } m ≠ none := by
        intro hc
        have h3 := (pf_saved_rel opt m).1.mpr hc
        rw [hpT] at h3
        cases h3
      cases hpF : passesFilters { opt with saved_only := false } m with
      | none => exact absurd hpF hnn
      | some bF =>
        rw [hpF] at hF
        cases bT
        · cases bF
          · exact ih sT sF rT rF hT hF hle hsv
          · refine ih sT _ rT rF hT hF ?hgrow hsv
            rw [fold_total]
            omega
        · obtain ⟨hF', hsav⟩ := (pf_saved_rel opt m).2 hpT
          have hbF : bF = true := by
            have h4 := hpF.symm.trans hF'
            injection h4
          subst hbF
          refine ih _ _ rT rF hT hF ?hle2 ?hsv2
          · rw [fold_total, fold_total]
            omega
          · rw [fold_total, fold_saved, hsav, hsv]
            simp

theorem analyzeList_panic (opt : Opt)
    (hd : opt.from_date ≠ none ∨ opt.to_date ≠ none) :
    ∀ (msgs : List Message) (s : Statistics),
      (∃ m ∈ msgs, firstTokenOpt m.Created = none) →
      analyzeMessagesList opt s msgs = none := by
  intro msgs
  induction msgs with
  | nil => intro s h; simp at h
  | cons m rest ih =>
    intro s h
    rw [analyzeList_cons]
    rcases h with ⟨m2, hm2, htok⟩
    rcases List.mem_cons.mp hm2 with heq | hmem
    · subst heq
      rw [pf_none_of_noToken opt m2 htok hd]
    · cases hp : passesFilters opt m with
      | none => rfl
      | some b =>
        cases b
        · exact ih s ⟨m2, hmem, htok⟩
        · exact ih (foldMessage s m) ⟨m2, hmem, htok⟩

theorem analyzeList_noPanic (opt : Opt) :
    ∀ (msgs : List Message), (∀ m ∈ msgs, hasNonWS m.Created = true) →
      ∀ s : Statistics, ∃ s', analyzeMessagesList opt s msgs = some s' := by
  intro msgs
  induction msgs with
  | nil => intro _ s; exact ⟨s, rfl⟩
  | cons m rest ih =>
    intro h s
    obtain ⟨tok, htok⟩ :=
      firstTokenOpt_of_hasNonWS m.Created (h m (List.mem_cons_self m rest))
    obtain ⟨b, hb⟩ := pf_some_of_token opt m tok htok
    have hrest : ∀ m2 ∈ rest, hasNonWS m2.Created = true :=
      fun m2 hm2 => h m2 (List.mem_cons_of_mem m hm2)
    rw [analyzeList_cons, hb]
    cases b
    · exact ih hrest s
    · exact ih hrest (foldMessage s m)

theorem utrEarliest_parse_none (e l : Option Int) : utrEarliest e l none = e := by
  cases e <;> cases l <;> rfl

theorem utrLatest_parse_none (e l : Option Int) : utrLatest e l none = l := by
  cases e <;> cases l <;> rfl

theorem utr_pair_inv (e l po : Option Int)
    (h1 : e = none ↔ l = none)
    (h2 : ∀ a b, e = some a → l = some b → a ≤ b) :
    (utrEarliest e l po = none ↔ utrLatest e l po = none)
    ∧ ∀ a b, utrEarliest e l po = some a → utrLatest e l po = some b → a ≤ b := by
  cases po with
  | none => exact ⟨h1, h2⟩
  | some dt =>
    cases e with
    | none =>
      cases l with
      | none =>
        constructor
        · simp [utrEarliest, utrLatest]
        · intro a b ha hb
          simp [utrEarliest] at ha
          simp [utrLatest] at hb
          omega
      | some b0 => exact absurd (h1.mp rfl) (by simp)
    | some a0 =>
      cases l with
      | none => exact absurd (h1.mpr rfl) (by simp)
      | some b0 =>
        have hab := h2 a0 b0 rfl rfl
        have hE : utrEarliest (some a0) (some b0) (some dt) =
            some (if dt < a0 then dt else a0) := by
          by_cases hlt : dt < a0 <;> simp [utrEarliest, hlt]
        have hL : utrLatest (some a0) (some b0) (some dt) =
            some (if dt > b0 then dt else b0) := by
          by_cases hgt : dt > b0 <;> simp [utrLatest, hgt]
        rw [hE, hL]
        constructor
        · simp
        · intro a b ha hb
          injection ha with ha2
          injection hb with hb2
          rw [← ha2, ← hb2]
          by_cases hlt : dt < a0 <;> by_cases hgt : dt > b0 <;>
            simp [hlt, hgt] <;> omega

theorem analyzeList_timeInv (opt : Opt) :
    ∀ (msgs : List Message) (s s' : Statistics),
      analyzeMessagesList opt s msgs = some s' →
      (s.earliest_message = none ↔ s.latest_message = none) →
      (∀ a b, s.earliest_message = some a → s.latest_message = some b → a ≤ b) →
      (s'.earliest_message = none ↔ s'.latest_message = none)
      ∧ ∀ a b, s'.earliest_message = some a → s'.latest_message = some b → a ≤ b := by
  intro msgs
  induction msgs with
  | nil =>
    intro s s' h h1 h2
    injection h with h3
    rw [← h3]
    exact ⟨h1, h2⟩
  | cons m rest ih =>
    intro s s' h h1 h2
    rw [analyzeList_cons] at h
    cases hp : passesFilters opt m with
    | none => rw [hp] at h; cases h
    | some b =>
      rw [hp] at h
      cases b
      · exact ih s s' h h1 h2
      · have hpair :=
          utr_pair_inv s.earliest_message s.latest_message
            (parseCreated m.Created) h1 h2
        refine ih _ s' h ?p1 ?p2
        · rw [fold_earliest, fold_latest]
          exact hpair.1
        · intro a b ha hb
          rw [fold_earliest] at ha
          rw [fold_latest] at hb
          exact hpair.2 a b ha hb

theorem analyzeList_timeUnchanged (opt : Opt) :
    ∀ (msgs : List Message) (s s' : Statistics),
      analyzeMessagesList opt s msgs = some s' →
      (∀ m ∈ msgs, passesFilters opt m = some true → parseCreated m.Created = none) →
      s'.earliest_message = s.earliest_message ∧
        s'.latest_message = s.latest_message := by
  intro msgs
  induction msgs with
  | nil =>
    intro s s' h _
    injection h with h3
    rw [← h3]
    exact ⟨rfl, rfl⟩
  | cons m rest ih =>
    intro s s' h hall
    rw [analyzeList_cons] at h
    cases hp : passesFilters opt m with
    | none => rw [hp] at h; cases h
    | some b =>
      rw [hp] at h
      have hrest : ∀ m2 ∈ rest, passesFilters opt m2 = some true →
          parseCreated m2.Created = none :=
        fun m2 hm2 => hall m2 (List.mem_cons_of_mem m hm2)
      cases b
      · exact ih s s' h hrest
      · have hpar : parseCreated m.Created = none :=
          hall m (List.mem_cons_self m rest) hp
        have hfin := ih _ s' h hrest
        constructor
        · rw [hfin.1, fold_earliest, hpar, utrEarliest_parse_none]
        · rw [hfin.2, fold_latest, hpar, utrLatest_parse_none]

theorem lexLt_irrefl (cs : List Char) : lexLt cs cs = false := by
  induction cs with
  | nil => rfl
  | cons c rest ih => simp [lexLt, lt_irrefl c, ih]

theorem strLt_irrefl (s : String) : strLt s s = false := lexLt_irrefl s.data

theorem mem_flatten_data (data : ChatData) (m : Message) :
    m ∈ (List.map Prod.snd data).flatten ↔ ∃ p ∈ data, m ∈ p.2 := by
  rw [List.mem_flatten]
  constructor
  · rintro ⟨l, hl, hm⟩
    obtain ⟨p, hp, hpl⟩ := List.mem_map.mp hl
    exact ⟨p, hp, by rw [hpl]; exact hm⟩
  · rintro ⟨p, hp, hm⟩
    exact ⟨p.2, List.mem_map.mpr ⟨p, hp, rfl⟩, hm⟩

/-! ### Concrete inputs used by the witnesses and counterexamples -/

/-- The message of the spec's single-message scenario. -/
def msgC2 : Message :=
  ⟨"Bob", "TEXT", "2021-01-01 10:00:00 UTC", some "hi", none, false, 0, true⟩

/-- The single-conversation input of the spec's scenario. -/
def dataC2 : ChatData := [("Alice & Bob", [msgC2])]

/-- A run with no filters set. -/
def optNone : Opt := ⟨"chat.json", none, none, none, false, false, none⟩

/-- An unsaved second message. -/
def msgC4 : Message :=
  ⟨"Bob", "TEXT", "2021-01-02 10:00:00 UTC", some "yo", none, false, 0, false⟩

/-- Input with one saved and one unsaved message. -/
def dataC4 : ChatData := [("Alice & Bob", [msgC2, msgC4])]

/-- A message whose timestamp does not parse. -/
def msgC7 : Message := ⟨"Bob", "TEXT", "not-a-date", none, none, false, 0, true⟩

/-- A message whose `Created` value is empty (no whitespace-delimited
token at all). -/
def msgC8 : Message := ⟨"Bob", "TEXT", "", none, none, false, 0, true⟩

/-- Input containing the token-less message. -/
def dataC8 : ChatData := [("Alice & Bob", [msgC8])]

/-- A run with a lower date bound set. -/
def optC8 : Opt := ⟨"chat.json", none, some "2021-01-01", none, false, false, none⟩

/-- A run whose only set filter is the lower date bound `2021-01-02`. -/
def optFrom2 : Opt :=
  ⟨"chat.json", none, some "2021-01-02", none, false, false, none⟩

/-- A run whose only set filter is the upper date bound `2021-01-03`. -/
def optTo3 : Opt :=
  ⟨"chat.json", none, none, some "2021-01-03", false, false, none⟩

/-- Message dated 2021-01-01 at 23:00. -/
def msgC9a : Message :=
  ⟨"Bob", "TEXT", "2021-01-01 23:00:00 UTC", none, none, false, 0, true⟩

/-- Message dated 2021-01-03 at 01:00 (26 hours after `msgC9a`). -/
def msgC9b : Message :=
  ⟨"Bob", "TEXT", "2021-01-03 01:00:00 UTC", none, none, false, 0, true⟩

/-- Input whose two messages are dated 2021-01-01 and 2021-01-03 but
span only 26 hours. -/
def dataC9 : ChatData := [("Alice & Bob", [msgC9a, msgC9b])]

/-- Message dated 2021-01-03 at 10:00 (exactly 2 days after `msgC2`). -/
def msgC9c : Message :=
  ⟨"Bob", "TEXT", "2021-01-03 10:00:00 UTC", none, none, false, 0, true⟩

/-- Statistics of the run over messages dated 2021-01-01 10:00 and
2021-01-03 10:00. -/
def sC9 : Statistics := foldMessage (foldMessage Statistics.new msgC2) msgC9c

/-! ### The claims -/

/-- Claim C1: the correspondent filter clause of `analyze_messages` never
excludes a message — its two conjoined sub-conditions require `IsSender`
to be false and true at once — so a run whose only set filter is `user`
returns the same `Statistics` as a run with no filters at all. -/
theorem claim_C1 :
    (∀ (opt : Opt) (msg : Message), userExcludes opt msg = false)
    ∧ ∀ (data : ChatData) (inp u : String) (det : Bool),
        analyze_messages data ⟨inp, some u, none, none, det, false, none⟩ =
          analyze_messages data ⟨inp, none, none, none, det, false, none⟩ := by
  constructor
  · exact userExcludes_eq_false
  · intro data inp u det
    unfold analyze_messages
    rw [analyzeConvs_flatten, analyzeConvs_flatten]
    apply analyzeList_congrPF
    intro m
    rw [pf_char, pf_char]
    rfl

/-- Claim C2: the folding step keeps the inverted `IsSender` semantics —
`IsSender = true` bumps `messages_received` and the received component
of the sender's pair, `IsSender = false` bumps `messages_sent` and the
sent component — and on the spec's single-message scenario (From "Bob",
IsSender false, no filters) the run yields total 1, sent 1, received 0,
saved 1 and media counts containing exactly `TEXT ↦ 1`. -/
theorem claim_C2 :
    (∀ (s : Statistics) (m : Message),
      (foldMessage s m).messages_received =
        s.messages_received + (if m.IsSender then 1 else 0) ∧
      (foldMessage s m).messages_sent =
        s.messages_sent + (if m.IsSender then 0 else 1) ∧
      ((foldMessage s m).users_interaction_counts m.From).2 =
        (s.users_interaction_counts m.From).2 + (if m.IsSender then 1 else 0) ∧
      ((foldMessage s m).users_interaction_counts m.From).1 =
        (s.users_interaction_counts m.From).1 + (if m.IsSender then 0 else 1))
    ∧ (analyze_messages dataC2 optNone).map Statistics.total_messages = some 1
    ∧ (analyze_messages dataC2 optNone).map Statistics.messages_sent = some 1
    ∧ (analyze_messages dataC2 optNone).map Statistics.messages_received = some 0
    ∧ (analyze_messages dataC2 optNone).map Statistics.saved_messages = some 1
    ∧ (analyze_messages dataC2 optNone).map
        (fun s => s.media_type_counts "TEXT") = some 1
    ∧ ∀ k, k ≠ "TEXT" →
        (analyze_messages dataC2 optNone).map
          (fun s => s.media_type_counts k) = some 0 := by
  refine ⟨?hA, rfl, rfl, rfl, rfl, rfl, ?hk⟩
  · intro s m
    refine ⟨?h1, ?h2, ?h3, ?h4⟩
    · rw [fold_received]
    · rw [fold_sent]
    · rw [fold_users]
      cases hs : m.IsSender <;> simp [hs]
    · rw [fold_users]
      cases hs : m.IsSender <;> simp [hs]
  · intro k hk
    show (some (foldMessage Statistics.new msgC2)).map
      (fun s => s.media_type_counts k) = some 0
    rw [Option.map_some']
    refine congrArg some ?g
    rw [fold_media]
    show (if k = msgC2.media_type then
        Statistics.new.media_type_counts k + 1
      else Statistics.new.media_type_counts k) = 0
    have hkm : k ≠ msgC2.media_type := hk
    rw [if_neg hkm]
    rfl

/-- Witness for C2 at the key `MEDIA`, distinct from `TEXT`. -/
theorem claim_C2_witness :
    (analyze_messages dataC2 optNone).map
      (fun s => s.media_type_counts "MEDIA") = some 0 :=
  claim_C2.2.2.2.2.2.2 "MEDIA" (by decide)

/-- Claim C3: every `Statistics` produced by `analyze_messages`
satisfies `total_messages = messages_sent + messages_received`. -/
theorem claim_C3 (data : ChatData) (opt : Opt) (s : Statistics)
    (h : analyze_messages data opt = some s) :
    s.total_messages = s.messages_sent + s.messages_received := by
  unfold analyze_messages at h
  rw [analyzeConvs_flatten] at h
  exact analyzeList_totalInv opt _ Statistics.new s h rfl

/-- Witness for C3 on the spec's single-message input. -/
theorem claim_C3_witness :
    (foldMessage Statistics.new msgC2).total_messages =
      (foldMessage Statistics.new msgC2).messages_sent +
        (foldMessage Statistics.new msgC2).messages_received :=
  claim_C3 dataC2 optNone (foldMessage Statistics.new msgC2) rfl

/-- Claim C4: with all other filters fixed, a `saved_only := true` run
counts at most as many messages as the `saved_only := false` run, and in
the restricted run every counted message was saved, so
`saved_messages = total_messages`. -/
theorem claim_C4 (data : ChatData) (opt : Opt) (sT sF : Statistics)
    (hT : analyze_messages data { opt with saved_only := true } = some sT)
    (hF : analyze_messages data { opt with saved_only := false } = some sF) :
    sT.total_messages ≤ sF.total_messages ∧
      sT.saved_messages = sT.total_messages := by
  unfold analyze_messages at hT hF
  rw [analyzeConvs_flatten] at hT hF
  exact analyzeList_savedRel opt _ Statistics.new Statistics.new sT sF hT hF le_rfl rfl

/-- Witness for C4: one saved and one unsaved message; the restricted
run keeps only the saved one. -/
theorem claim_C4_witness :
    (foldMessage Statistics.new msgC2).total_messages ≤
      (foldMessage (foldMessage Statistics.new msgC2) msgC4).total_messages ∧
    (foldMessage Statistics.new msgC2).saved_messages =
      (foldMessage Statistics.new msgC2).total_messages :=
  claim_C4 dataC4 optNone (foldMessage Statistics.new msgC2)
    (foldMessage (foldMessage Statistics.new msgC2) msgC4) rfl rfl

/-- Claim C5: with `media_type = some X` set, the resulting media map is
`0` away from `X` and carries the whole total at `X` — i.e. it is either
empty or exactly `X ↦ total_messages`. -/
theorem claim_C5 (data : ChatData) (opt : Opt) (X : String) (s : Statistics)
    (h : analyze_messages data { opt with media_type := some X } = some s) :
    s.media_type_counts X = s.total_messages ∧
      ∀ k, k ≠ X → s.media_type_counts k = 0 := by
  unfold analyze_messages at h
  rw [analyzeConvs_flatten] at h
  exact analyzeList_mediaInv { opt with media_type := some X } X rfl _
    Statistics.new s h rfl (fun k hk => rfl)

/-- Witness for C5 on the single-`TEXT`-message input, sampled at the
distinct key `MEDIA`. -/
theorem claim_C5_witness :
    (foldMessage Statistics.new msgC2).media_type_counts "TEXT" =
      (foldMessage Statistics.new msgC2).total_messages ∧
    (foldMessage Statistics.new msgC2).media_type_counts "MEDIA" = 0 :=
  ⟨(claim_C5 dataC2 optNone "TEXT" (foldMessage Statistics.new msgC2) rfl).1,
   (claim_C5 dataC2 optNone "TEXT" (foldMessage Statistics.new msgC2) rfl).2
     "MEDIA" (by decide)⟩

/-- Claim C6: for a message whose `Created` contains a non-whitespace
character, whenever `from_date` is set the `from_date` clause excludes
the message exactly when the whitespace-delimited date token is
lexically below that bound, and whenever `to_date` is set the `to_date`
clause excludes it exactly when the token is lexically above that
bound; each bound is covered independently of whether the other is set,
and a token equal to the bound is kept (the bounds are inclusive). -/
theorem claim_C6 (opt : Opt) (msg : Message)
    (hw : hasNonWS msg.Created = true) :
    ∃ tok, firstTokenOpt msg.Created = some tok ∧
      (∀ fd, opt.from_date = some fd →
        (fromDateExcludes opt msg = some true ↔ strLt tok fd = true) ∧
        (tok = fd → fromDateExcludes opt msg = some false)) ∧
      (∀ td, opt.to_date = some td →
        (toDateExcludes opt msg = some true ↔ strLt td tok = true) ∧
        (tok = td → toDateExcludes opt msg = some false)) := by
  obtain ⟨tok, htok⟩ := firstTokenOpt_of_hasNonWS msg.Created hw
  refine ⟨tok, htok, ?hfrom, ?hto⟩
  · intro fd hf
    constructor
    · simp [fromDateExcludes, hf, htok]
    · intro he
      subst he
      simp [fromDateExcludes, hf, htok, strLt_irrefl]
  · intro td ht
    constructor
    · simp [toDateExcludes, ht, htok]
    · intro he
      subst he
      simp [toDateExcludes, ht, htok, strLt_irrefl]

/-- Witness for C6, one date bound at a time: under `from_date =
2021-01-01` alone a token equal to the bound is kept; under `from_date
= 2021-01-02` alone the earlier token `2021-01-01` is excluded; under
`to_date = 2021-01-03` alone a token equal to the bound is kept. -/
theorem claim_C6_witness :
    fromDateExcludes optC8 msgC2 = some false ∧
      fromDateExcludes optFrom2 msgC2 = some true ∧
      toDateExcludes optTo3 msgC9c = some false := by
  refine ⟨?h1, ?h2, ?h3⟩
  · obtain ⟨tok, htok, hfrom, hto⟩ := claim_C6 optC8 msgC2 rfl
    have he : tok = "2021-01-01" := by
      have h5 : some tok = some "2021-01-01" := htok.symm.trans rfl
      injection h5
    exact (hfrom "2021-01-01" rfl).2 he
  · obtain ⟨tok, htok, hfrom, hto⟩ := claim_C6 optFrom2 msgC2 rfl
    have he : tok = "2021-01-01" := by
      have h5 : some tok = some "2021-01-01" := htok.symm.trans rfl
      injection h5
    refine (hfrom "2021-01-02" rfl).1.mpr ?hlt
    rw [he]
    rfl
  · obtain ⟨tok, htok, hfrom, hto⟩ := claim_C6 optTo3 msgC9c rfl
    have he : tok = "2021-01-03" := by
      have h5 : some tok = some "2021-01-03" := htok.symm.trans rfl
      injection h5
    exact (hto "2021-01-03" rfl).2 he

/-- Claim C7: a message that passes the filters but whose `Created`
does not parse still updates every counter and both maps, leaves
`earliest_message`/`latest_message` exactly unchanged, and the loop
continues normally (no error reaches the caller). -/
theorem claim_C7 (opt : Opt) (stats : Statistics) (msg : Message)
    (rest : List Message)
    (hp : parseCreated msg.Created = none)
    (hf : passesFilters opt msg = some true) :
    analyzeMessagesList opt stats (msg :: rest) =
      analyzeMessagesList opt (foldMessage stats msg) rest ∧
    (foldMessage stats msg).earliest_message = stats.earliest_message ∧
    (foldMessage stats msg).latest_message = stats.latest_message ∧
    (foldMessage stats msg).total_messages = stats.total_messages + 1 ∧
    (foldMessage stats msg).messages_sent + (foldMessage stats msg).messages_received =
      stats.messages_sent + stats.messages_received + 1 ∧
    (foldMessage stats msg).saved_messages =
      stats.saved_messages + (if msg.IsSaved then 1 else 0) ∧
    (foldMessage stats msg).media_type_counts msg.media_type =
      stats.media_type_counts msg.media_type + 1 ∧
    ((foldMessage stats msg).users_interaction_counts msg.From).1 +
        ((foldMessage stats msg).users_interaction_counts msg.From).2 =
      (stats.users_interaction_counts msg.From).1 +
        (stats.users_interaction_counts msg.From).2 + 1 := by
  refine ⟨?h1, ?h2, ?h3, fold_total stats msg, ?h5, fold_saved stats msg, ?h7, ?h8⟩
  · rw [analyzeList_cons, hf]
  · rw [fold_earliest, hp, utrEarliest_parse_none]
  · rw [fold_latest, hp, utrLatest_parse_none]
  · rw [fold_sent, fold_received]
    cases msg.IsSender <;> simp <;> omega
  · rw [fold_media]
    simp
  · rw [fold_users]
    cases hs : msg.IsSender <;> simp [hs] <;> omega

/-- Witness for C7 on the `Created = "not-a-date"` scenario. -/
theorem claim_C7_witness :
    (foldMessage Statistics.new msgC7).earliest_message =
        Statistics.new.earliest_message ∧
      (foldMessage Statistics.new msgC7).total_messages =
        Statistics.new.total_messages + 1 :=
  ⟨(claim_C7 optNone Statistics.new msgC7 [] rfl rfl).2.1,
   (claim_C7 optNone Statistics.new msgC7 [] rfl rfl).2.2.2.1⟩

/-- Claim C8: with a date bound set, a message whose `Created` has no
whitespace-delimited token makes `analyze_messages` hit the
`.next().unwrap()` panic; if every `Created` contains a non-whitespace
character the analysis is total. -/
theorem claim_C8 (data : ChatData) (opt : Opt) :
    ((opt.from_date ≠ none ∨ opt.to_date ≠ none) →
      (∃ p ∈ data, ∃ m ∈ p.2, firstTokenOpt m.Created = none) →
      analyze_messages data opt = none)
    ∧ ((∀ p ∈ data, ∀ m ∈ p.2, hasNonWS m.Created = true) →
        ∃ s, analyze_messages data opt = some s) := by
  constructor
  · intro hd hbad
    unfold analyze_messages
    rw [analyzeConvs_flatten]
    apply analyzeList_panic opt hd
    obtain ⟨p, hp, m, hm, htok⟩ := hbad
    exact ⟨m, (mem_flatten_data data m).mpr ⟨p, hp, hm⟩, htok⟩
  · intro hgood
    unfold analyze_messages
    rw [analyzeConvs_flatten]
    apply analyzeList_noPanic
    intro m hm
    obtain ⟨p, hp, hmp⟩ := (mem_flatten_data data m).mp hm
    exact hgood p hp m hmp

/-- Witness for C8: the empty `Created` panics under a `from_date`
bound, while the well-formed input is analyzed successfully. -/
theorem claim_C8_witness :
    analyze_messages dataC8 optC8 = none ∧
      (analyze_messages dataC2 optC8).isSome = true := by
  constructor
  · exact (claim_C8 dataC8 optC8).1 (Or.inl (by decide))
      ⟨("Alice & Bob", [msgC8]), by simp [dataC8], msgC8, by simp, rfl⟩
  · obtain ⟨s, hs⟩ := (claim_C8 dataC2 optC8).2 (by decide)
    rw [hs]
    rfl

/-- Claim C10: `earliest_message` and `latest_message` are both absent
or both present; both are absent whenever no accepted message has a
parseable `Created` (in particular when nothing passes the filters), in
which case no date-range line is printed; when present,
`earliest_message ≤ latest_message`. -/
theorem claim_C10 (data : ChatData) (opt : Opt) (s : Statistics)
    (h : analyze_messages data opt = some s) :
    (s.earliest_message = none ↔ s.latest_message = none)
    ∧ ((∀ p ∈ data, ∀ m ∈ p.2, passesFilters opt m = some true →
          parseCreated m.Created = none) →
        s.earliest_message = none ∧ s.latest_message = none)
    ∧ (∀ e l, s.earliest_message = some e → s.latest_message = some l → e ≤ l)
    ∧ (s.earliest_message = none → dateRangeDays s = none) := by
  unfold analyze_messages at h
  rw [analyzeConvs_flatten] at h
  have hinv := analyzeList_timeInv opt _ Statistics.new s h
    (by constructor <;> intro <;> rfl)
    (by intro a b ha hb; simp [Statistics.new] at ha)
  refine ⟨hinv.1, ?h2, hinv.2, ?h4⟩
  · intro hall
    have hun := analyzeList_timeUnchanged opt _ Statistics.new s h ?cond
    · rw [hun.1, hun.2]
      exact ⟨rfl, rfl⟩
    · intro m hm hpf
      obtain ⟨p, hp, hmp⟩ := (mem_flatten_data data m).mp hm
      exact hall p hp m hmp hpf
  · intro hne
    cases hl : s.latest_message with
    | none => unfold dateRangeDays; rw [hne, hl]
    | some l => unfold dateRangeDays; rw [hne, hl]

/-- Witness for C10: bound comparison on the single-message run, and
the absent case on the empty input. -/
theorem claim_C10_witness :
    (1609495200 : Int) ≤ 1609495200 ∧
      (Statistics.new.earliest_message = none ∧
        Statistics.new.latest_message = none) := by
  constructor
  · exact (claim_C10 dataC2 optNone (foldMessage Statistics.new msgC2) rfl).2.2.1
      1609495200 1609495200 rfl rfl
  · exact (claim_C10 [] optNone Statistics.new rfl).2.1
      (by intro p hp m hm hpf; simp at hp)

/-- Counterexample to claim C9: on messages created 26 hours apart but
dated `2021-01-01` and `2021-01-03`, `print_statistics` reports
`duration.num_days() = 1` day, while the difference of the calendar
date parts — the spec's formula — is `2`; the reported day count is not
the calendar-date difference, and it does depend on the time of day. -/
theorem claim_C9_counterexample :
    (analyze_messages dataC9 optNone).bind dateRangeDays = some 1 ∧
      (analyze_messages dataC9 optNone).bind specDateRangeDays = some 2 ∧
      (1 : Int) ≠ 2 := by
  refine ⟨rfl, rfl, by decide⟩

/-- Claim C9 (amended): when both bounds are present and the truncated
span in whole 24-hour periods is positive, the reported day count is
exactly that truncated span `(latest − earliest).tdiv 86400` (chrono's
`num_days`), and the reported average is `total_messages / days` (as an
exact rational); the truncated span agrees with the spec's
calendar-date difference whenever the two bounds share the same time of
day — in particular two messages dated `2021-01-01` and `2021-01-03` at
equal times give days = 2. -/
theorem claim_C9_amended (s : Statistics) (e l : Int)
    (he : s.earliest_message = some e) (hl : s.latest_message = some l)
    (hel : e ≤ l) (hpos : 0 < Int.tdiv (l - e) 86400) :
    dateRangeDays s = some (Int.tdiv (l - e) 86400) ∧
    averageQ s =
      some ((s.total_messages : ℚ) / ((Int.tdiv (l - e) 86400 : Int) : ℚ)) ∧
    (l % 86400 = e % 86400 →
      Int.tdiv (l - e) 86400 = Int.fdiv l 86400 - Int.fdiv e 86400 ∧
      specDateRangeDays s = some (Int.tdiv (l - e) 86400)) := by
  have hdr : dateRangeDays s = some (Int.tdiv (l - e) 86400) := by
    unfold dateRangeDays
    rw [he, hl]
    dsimp only
    rw [if_pos hpos]
  have htd : Int.tdiv (l - e) 86400 = (l - e) / 86400 := by
    have hnn : 0 ≤ l - e := sub_nonneg.mpr hel
    obtain ⟨n, hn⟩ := Int.eq_ofNat_of_zero_le hnn
    rw [hn]
    rfl
  have hfd : Int.fdiv l 86400 = l / 86400 := Int.fdiv_eq_ediv l (by norm_num)
  have hfe : Int.fdiv e 86400 = e / 86400 := Int.fdiv_eq_ediv e (by norm_num)
  refine ⟨hdr, ?havg, ?hcal⟩
  · unfold averageQ
    rw [hdr]
    rfl
  · intro hmod
    have key : (l - e) / 86400 = l / 86400 - e / 86400 := by omega
    constructor
    · rw [htd, key, ← hfd, ← hfe]
    · unfold specDateRangeDays
      rw [he, hl]
      dsimp only
      rw [htd, key, ← hfd, ← hfe]

/-- Witness for the amended C9: two messages dated 2021-01-01 and
2021-01-03, both at 10:00, give two reported days and an average of one
message per day. -/
theorem claim_C9_amended_witness :
    dateRangeDays sC9 = some 2 ∧ averageQ sC9 = some 1 ∧
      specDateRangeDays sC9 = some 2 := by
  have h := claim_C9_amended sC9 1609495200 1609668000 rfl rfl
    (by decide) (by decide)
  refine ⟨?h1, ?h2, ?h3⟩
  · rw [h.1]
    rfl
  · rw [h.2.1]
    show some (((2 : ℕ) : ℚ) / ((2 : ℤ) : ℚ)) = some 1
    refine congrArg some ?g
    push_cast
    norm_num
  · rw [(h.2.2 (by decide)).2]
    rfl
